import Mathlib

/-!
# Verification of the segment/timeline model of the AI Auto-Editor web app

Shallow embedding of the reactive data model and handlers of the repository
(`src/App.tsx`, `src/Timeline.tsx`, `src/geminiService.ts`, `src/types.ts`).

Times (seconds) are modelled as rationals `ℚ`; the claims only compare and
scale them linearly at points where JavaScript's floating point arithmetic is
exact or irrelevant, except where a hypothesis (e.g. a positive track width)
keeps the model and the source in agreement.  Browser objects (`File`, object
URLs, DOM refs) are opaque to the segment logic and are modelled by strings or
booleans.  `Date.now()` and `Math.random()` are modelled as explicit inputs.
-/

/-- `Segment` from `src/types.ts`: a timed narration span.  `assignedImageId`
is optional (`undefined` in TS is `none`). -/
structure Segment where
  id : String
  startTime : ℚ
  endTime : ℚ
  text : String
  visualPrompt : String
  emotion : String
  assignedImageId : Option String
deriving DecidableEq, Repr

/-- `UploadedImage` from `src/types.ts`.  The `file` field (a browser `File`
object) is opaque to the segment logic and not modelled; `url` stands for the
object URL produced by `URL.createObjectURL`. -/
structure UploadedImage where
  id : String
  url : String
  name : String
deriving DecidableEq, Repr

/-- Status component of `ProcessingState` from `src/types.ts`. -/
inductive Status where
  | idle | analyzing | matching | ready | error
deriving DecidableEq, Repr

/-- `ProcessingState` from `src/types.ts`. -/
structure ProcessingState where
  status : Status
  message : String
deriving DecidableEq, Repr

/-- `VideoProject` from `src/types.ts`.  The opaque `audioFile`/`audioUrl`
browser handles are not part of the segment logic and are not modelled. -/
structure VideoProject where
  duration : ℚ
  segments : List Segment
deriving DecidableEq, Repr

/-- The component state of `App` (`src/App.tsx` lines 9–18). -/
structure AppState where
  project : VideoProject
  images : List UploadedImage
  processing : ProcessingState
  isPlaying : Bool
  currentTime : ℚ
deriving DecidableEq, Repr

/-- JavaScript's `Array.prototype.map((x, i) => ...)`: map with the element
index, starting from `n`. -/
def mapWithIdx (f : Nat → α → β) : Nat → List α → List β
  | _, [] => []
  | n, a :: as => f n a :: mapWithIdx f (n + 1) as

/-- The predicate of `currentSegment` (`src/App.tsx` lines 121–125):
`currentTime >= seg.startTime && currentTime < seg.endTime`. -/
def activeAt (seg : Segment) (currentTime : ℚ) : Bool :=
  decide (seg.startTime ≤ currentTime) && decide (currentTime < seg.endTime)

/-- `currentSegment` (`src/App.tsx` lines 121–125):
`project.segments.find(seg => currentTime >= seg.startTime && currentTime < seg.endTime)`.
`Array.prototype.find` returns the first match or `undefined` (`none`). -/
def currentSegment (segments : List Segment) (currentTime : ℚ) : Option Segment :=
  segments.find? (fun seg => activeAt seg currentTime)

/-- `images[i]` for an index produced by `i % images.length`: when the list is
nonempty the index is always in range, so the default element is never used. -/
def imageAt (images : List UploadedImage) (i : Nat) : UploadedImage :=
  images.getD i ⟨"", "", ""⟩

/-- `matchImagesToSegments` (`src/geminiService.ts` lines 91–109): copies the
segment array, returns it unchanged when `images.length === 0`, otherwise
assigns `images[index % images.length].id` to every segment by position. -/
def matchImagesToSegments (segments : List Segment) (images : List UploadedImage) :
    List Segment :=
  if images.length = 0 then segments
  else
    mapWithIdx
      (fun index seg =>
        { seg with assignedImageId := some (imageAt images (index % images.length)).id })
      0 segments

/-- One element of the JSON array returned by the external analysis call
(`src/geminiService.ts` response schema, lines 55–68): all five fields
required. -/
structure RawSegmentItem where
  start_time : ℚ
  end_time : ℚ
  text : String
  visual_description : String
  emotion : String
deriving DecidableEq, Repr

/-- The mapping of the raw analysis response to `Segment`s
(`src/geminiService.ts` lines 75–83): `id` is `seg-<index>-<Date.now()>` and
`assignedImageId` is `undefined`.  `now` stands for the `Date.now()` value. -/
def analysisToSegments (rawData : List RawSegmentItem) (now : Nat) : List Segment :=
  mapWithIdx
    (fun index item =>
      { id := "seg-" ++ toString index ++ "-" ++ toString now
        startTime := item.start_time
        endTime := item.end_time
        text := item.text
        visualPrompt := item.visual_description
        emotion := item.emotion
        assignedImageId := none })
    0 rawData

/-- `handleAudioUpload` (`src/App.tsx` lines 26–56) as a state transition.
The outcome of `analyzeAudioAndSegment` is an explicit input
(`Except` message / raw items), `metaDuration` is the duration resolved by the
metadata load, `now` the `Date.now()` of the analysis mapping.  The handler
first resets `segments` to `[]` and sets status `analyzing`, then sets the
duration, then either installs the matched segments with status `ready` or
catches the error and sets status `error` with the message
`err.message || "Analysis failed."` (JavaScript `||` falls back on the empty
string). -/
def handleAudioUpload (s : AppState) (metaDuration : ℚ)
    (analysisResult : Except String (List RawSegmentItem)) (now : Nat) : AppState :=
  let s1 : AppState :=
    { s with
      project := { s.project with segments := [] }
      processing := ⟨.analyzing, "Listening and analyzing audio structure..."⟩ }
  let s2 : AppState := { s1 with project := { s1.project with duration := metaDuration } }
  match analysisResult with
  | .error msg =>
      { s2 with processing := ⟨.error, if msg = "" then "Analysis failed." else msg⟩ }
  | .ok rawData =>
      let segments := analysisToSegments rawData now
      let segmentsWithImages := matchImagesToSegments segments s2.images
      { s2 with
        project := { s2.project with segments := segmentsWithImages }
        processing := ⟨.ready, "Analysis complete."⟩ }

/-- The image id generator of `handleImageUpload` (`src/App.tsx` line 61):
`img-${Date.now()}-${Math.random().toString(36).substr(2, 9)}`.  `now` is the
`Date.now()` value, `rand` the random base-36 suffix drawn for this file. -/
def makeImageId (now : Nat) (rand : String) : String :=
  "img-" ++ toString now ++ "-" ++ rand

/-- One file of an image-upload event, with the `Date.now()` value and the
`Math.random()` suffix observed while mapping that file (`src/App.tsx`
lines 60–65). -/
structure ImageFileEvent where
  name : String
  url : String
  now : Nat
  rand : String
deriving DecidableEq, Repr

/-- The `newImages` array built by `handleImageUpload` (`src/App.tsx`
lines 60–65), in input order. -/
def imagesFromFiles (files : List ImageFileEvent) : List UploadedImage :=
  files.map fun f => { id := makeImageId f.now f.rand, url := f.url, name := f.name }

/-- The segment map inside `handleImageUpload` (`src/App.tsx` lines 71–76):
auto-fill every segment without an `assignedImageId` with
`updated[i % updated.length].id` (`i` the segment's index); segments that
already carry an assignment are returned as they are.  When the updated
gallery is empty the source's indexing would fault (`i % 0` is `NaN`); the
claims about this handler therefore carry a nonempty-gallery hypothesis,
under which `imageAt` agrees with the source's `updated[i % updated.length]`. -/
def autoFillSegments (updated : List UploadedImage) (segments : List Segment) : List Segment :=
  mapWithIdx
    (fun i seg =>
      if seg.assignedImageId = none then
        { seg with assignedImageId := some (imageAt updated (i % updated.length)).id }
      else seg)
    0 segments

/-- The `setImages` updater of `handleImageUpload` applied to the app state:
append the new images and, when segments exist, install the auto-filled
segment list via `setProject`. -/
def handleImageUpload (s : AppState) (newImages : List UploadedImage) : AppState :=
  let updated := s.images ++ newImages
  if s.project.segments.length > 0 then
    { s with
      images := updated
      project := { s.project with segments := autoFillSegments updated s.project.segments } }
  else { s with images := updated }

/-- `handleImageUpload` (`src/App.tsx` lines 58–82) from the raw file events:
build `newImages` from the files, then run the gallery/segment update. -/
def handleImageUploadFiles (s : AppState) (files : List ImageFileEvent) : AppState :=
  handleImageUpload s (imagesFromFiles files)

/-- The segment-list update of `assignImageToSegment` (`src/App.tsx`
lines 84–91): set `assignedImageId` on every segment whose `id` equals
`segmentId`, leave the rest untouched. -/
def assignImageToSegment (segments : List Segment) (segmentId imageId : String) :
    List Segment :=
  segments.map fun seg =>
    if seg.id = segmentId then { seg with assignedImageId := some imageId } else seg

/-- `assignImageToSegment` as the `App` state transition (`src/App.tsx`
lines 84–91): `setProject` with the mapped segment list; nothing else of the
state changes and the gallery is never consulted. -/
def assignImage (s : AppState) (segmentId imageId : String) : AppState :=
  { s with
    project :=
      { s.project with segments := assignImageToSegment s.project.segments segmentId imageId } }

/-- `handleSeek` (`src/App.tsx` lines 103–108): sets the audio position and
mirrors it into `currentTime`. -/
def handleSeek (s : AppState) (time : ℚ) : AppState :=
  { s with currentTime := time }

/-- `handleTimelineClick` (`src/Timeline.tsx` lines 41–47): returns the seek
time passed to `onSeek`, or `none` when no seek happens.  `containerPresent`
models the `containerRef.current` null check; the guard returns early when the
ref is absent or `duration === 0`.  Otherwise
`percentage = Math.max(0, Math.min(1, (clientX - rect.left) / rect.width))`
and the seek time is `percentage * duration`. -/
def handleTimelineClick (containerPresent : Bool) (duration : ℚ)
    (rectLeft clientX rectWidth : ℚ) : Option ℚ :=
  if !containerPresent || duration = 0 then none
  else
    let x := clientX - rectLeft
    let percentage := max 0 (min 1 (x / rectWidth))
    some (percentage * duration)

/-- A timeline click applied to the app state: when `handleTimelineClick`
fires it calls `onSeek` (= `handleSeek`); when it returns early the callback
is never invoked and the state is untouched. -/
def applyTimelineClick (s : AppState) (containerPresent : Bool)
    (rectLeft clientX rectWidth : ℚ) : AppState :=
  match handleTimelineClick containerPresent s.project.duration rectLeft clientX rectWidth with
  | none => s
  | some t => handleSeek s t

/-! ## Helper lemmas -/

theorem mapWithIdx_length (f : Nat → α → β) (n : Nat) (l : List α) :
    (mapWithIdx f n l).length = l.length := by
  induction l generalizing n with
  | nil => rfl
  | cons a as ih => simp [mapWithIdx, ih]

theorem mapWithIdx_get? (f : Nat → α → β) (n : Nat) (l : List α) (i : Nat) :
    (mapWithIdx f n l).get? i = (l.get? i).map (f (n + i)) := by
  induction l generalizing n i with
  | nil => simp [mapWithIdx]
  | cons a as ih =>
    cases i with
    | zero => simp [mapWithIdx]
    | succ j =>
      simp only [mapWithIdx, List.get?_cons_succ, ih (n + 1) j]
      rw [Nat.add_assoc, Nat.add_comm 1 j]

theorem activeAt_iff (seg : Segment) (t : ℚ) :
    activeAt seg t = true ↔ seg.startTime ≤ t ∧ t < seg.endTime := by
  simp [activeAt]

theorem find?_first_characterization (p : α → Bool) (l : List α) (b : α)
    (h : l.find? p = some b) :
    p b = true ∧ ∃ pre post, l = pre ++ b :: post ∧ ∀ u ∈ pre, p u = false := by
  induction l with
  | nil => simp [List.find?] at h
  | cons a as ih =>
    by_cases ha : p a = true
    · rw [List.find?_cons_of_pos _ ha] at h
      cases h
      exact ⟨ha, [], as, rfl, by simp⟩
    · rw [List.find?_cons_of_neg _ (by simpa using ha)] at h
      obtain ⟨hb, pre, post, rfl, hpre⟩ := ih h
      refine ⟨hb, a :: pre, post, rfl, ?_⟩
      intro u hu
      rcases List.mem_cons.mp hu with rfl | hu
      · simpa using ha
      · exact hpre u hu

theorem current_segment_unique_aux (t : ℚ) (segs : List Segment)
    (hsort : segs.Pairwise (fun a b => a.endTime ≤ b.startTime)) :
    ∀ s ∈ segs, activeAt s t = true → currentSegment segs t = some s := by
  induction segs with
  | nil => intro s hs; simp at hs
  | cons a as ih =>
    intro s hs hact
    rcases List.mem_cons.mp hs with rfl | hmem
    · simp [currentSegment, List.find?, hact]
    · have hdis : a.endTime ≤ s.startTime := (List.pairwise_cons.mp hsort).1 s hmem
      have hnota : activeAt a t = false := by
        rw [Bool.eq_false_iff]
        intro hcontra
        rcases (activeAt_iff a t).mp hcontra with ⟨-, hlt⟩
        exact absurd hlt (not_lt.mpr (le_trans hdis ((activeAt_iff s t).mp hact).1))
      have htail := ih (List.pairwise_cons.mp hsort).2 s hmem hact
      simpa [currentSegment, List.find?, hnota] using htail

/-- Sample segments for concrete instances: two contiguous, sorted,
non-overlapping spans covering `[0, 6)` and `[6, 12)`. -/
def segA : Segment := ⟨"seg-a", 0, 6, "hello", "sunrise", "Calm", none⟩

/-- Second sample segment, `[6, 12)`. -/
def segB : Segment := ⟨"seg-b", 6, 12, "world", "city", "Happy", none⟩

/-- **C1**: `currentSegment` returns the first segment in list order whose
interval satisfies `startTime ≤ currentTime < endTime`; it returns `none`
(no failure) when no interval contains `currentTime`; and on sorted,
non-overlapping lists the match is unique — any containing segment is the
result. -/
theorem C1_current_segment_resolution (segs : List Segment) (t : ℚ) :
    ((∀ s ∈ segs, ¬ (s.startTime ≤ t ∧ t < s.endTime)) → currentSegment segs t = none) ∧
    (∀ s, currentSegment segs t = some s →
      (s.startTime ≤ t ∧ t < s.endTime) ∧
      ∃ pre post, segs = pre ++ s :: post ∧
        ∀ u ∈ pre, ¬ (u.startTime ≤ t ∧ t < u.endTime)) ∧
    (segs.Pairwise (fun a b => a.endTime ≤ b.startTime) →
      ∀ s ∈ segs, (s.startTime ≤ t ∧ t < s.endTime) → currentSegment segs t = some s) := by
  refine ⟨?_, ?_, ?_⟩
  · intro h
    simp only [currentSegment, List.find?_eq_none]
    intro x hx
    simpa [activeAt_iff] using h x hx
  · intro s hs
    obtain ⟨hp, pre, post, heq, hpre⟩ := find?_first_characterization _ _ _ hs
    refine ⟨(activeAt_iff s t).mp hp, pre, post, heq, ?_⟩
    intro u hu
    have hu' := hpre u hu
    rw [← activeAt_iff]
    simp [hu']
  · intro hsort s hs hact
    exact current_segment_unique_aux t segs hsort s hs ((activeAt_iff s t).mpr hact)

/-- Concrete instance of C1: at `t = 7` the unique containing segment `segB`
is returned; at `t = 20` (past the last segment) no segment is active. -/
theorem C1_current_segment_resolution_witness :
    currentSegment [segA, segB] 7 = some segB ∧ currentSegment [segA, segB] 20 = none := by
  constructor
  · exact (C1_current_segment_resolution [segA, segB] 7).2.2 (by decide) segB (by decide)
      (by decide)
  · exact (C1_current_segment_resolution [segA, segB] 20).1 (by decide)

theorem mapWithIdx_forall_mem (f : Nat → α → β) (p : β → Prop)
    (hf : ∀ i a, p (f i a)) (n : Nat) (l : List α) :
    ∀ b ∈ mapWithIdx f n l, p b := by
  induction l generalizing n with
  | nil => simp [mapWithIdx]
  | cons a as ih =>
    intro b hb
    simp only [mapWithIdx, List.mem_cons] at hb
    rcases hb with rfl | hb
    · exact hf _ _
    · exact ih (n + 1) b hb

/-- Every segment produced by the analysis mapping starts unassigned
(`assignedImageId: undefined`, `src/geminiService.ts` line 82). -/
theorem analysisToSegments_unassigned (rawData : List RawSegmentItem) (now : Nat) :
    ∀ seg ∈ analysisToSegments rawData now, seg.assignedImageId = none := by
  unfold analysisToSegments
  exact mapWithIdx_forall_mem (α := RawSegmentItem) (β := Segment) _
    (fun seg => seg.assignedImageId = none) (fun _ _ => rfl) 0 rawData

theorem handleImageUpload_images (s : AppState) (newImages : List UploadedImage) :
    (handleImageUpload s newImages).images = s.images ++ newImages := by
  by_cases h : s.project.segments.length > 0 <;> simp [handleImageUpload, h]

theorem handleImageUpload_segments (s : AppState) (newImages : List UploadedImage) :
    (handleImageUpload s newImages).project.segments
      = if s.project.segments.length > 0
        then autoFillSegments (s.images ++ newImages) s.project.segments
        else s.project.segments := by
  by_cases h : s.project.segments.length > 0 <;> simp [handleImageUpload, h]

/-- The initial `App` state (`src/App.tsx` lines 9–18): empty project,
duration `0`, empty gallery, status `idle`, not playing, time `0`. -/
def initialState : AppState :=
  { project := { duration := 0, segments := [] }
    images := []
    processing := ⟨.idle, ""⟩
    isPlaying := false
    currentTime := 0 }

/-- A state after a successful earlier analysis: one installed segment and
status `ready`.  Used to exercise a re-upload. -/
def priorState : AppState :=
  { project := { duration := 6, segments := [{ segA with assignedImageId := some "img-1" }] }
    images := []
    processing := ⟨.ready, "Analysis complete."⟩
    isPlaying := false
    currentTime := 0 }

/-- **C2 counterexample**: with a segment installed from an earlier analysis,
a new upload whose analysis call rejects ends with status `error` but with an
*empty* segment list — `handleAudioUpload` clears `segments` to `[]` when the
upload begins (`src/App.tsx` line 31), so the pre-upload segment list is not
preserved. -/
theorem C2_prior_segments_cleared_counterexample :
    (handleAudioUpload priorState 3 (.error "network error") 0).processing.status
        = .error ∧
    (handleAudioUpload priorState 3 (.error "network error") 0).project.segments
        ≠ priorState.project.segments := by
  exact ⟨rfl, by decide⟩

/-- **C2 (amended)**: if the analysis call rejects, the status becomes
`error` with the error's message (falling back to `"Analysis failed."` on an
empty message) and no segment set is installed: the segment list ends empty —
it was cleared when the upload began — which equals the pre-upload list
exactly when that list was empty (first upload). -/
theorem C2_analysis_failure_amended (s : AppState) (metaDuration : ℚ)
    (msg : String) (now : Nat) :
    (handleAudioUpload s metaDuration (.error msg) now).processing.status = .error ∧
    (handleAudioUpload s metaDuration (.error msg) now).processing.message
      = (if msg = "" then "Analysis failed." else msg) ∧
    (handleAudioUpload s metaDuration (.error msg) now).project.segments = [] ∧
    (s.project.segments = [] →
      (handleAudioUpload s metaDuration (.error msg) now).project.segments
        = s.project.segments) := by
  refine ⟨rfl, rfl, rfl, ?_⟩
  intro h
  simp [handleAudioUpload, h]

/-- Concrete instance of the amended C2: on the first upload (empty prior
segment list) a rejected analysis leaves the segment list unchanged. -/
theorem C2_analysis_failure_amended_witness :
    initialState.project.segments = [] ∧
    (handleAudioUpload initialState 3 (.error "network error") 0).project.segments
      = initialState.project.segments :=
  ⟨rfl, (C2_analysis_failure_amended initialState 3 "network error" 0).2.2.2 rfl⟩

/-- **C3**: auto-fill never overwrites an existing assignment, for any
ordering of "analysis completes" vs "images added".  First conjunct: the
images-added pass (`handleImageUpload`) returns every segment that already
carries an `assignedImageId` exactly as it was — same assignment, same
position, all other fields untouched.  Second conjunct: the
analysis-completes pass (`matchImagesToSegments` inside `handleAudioUpload`)
only ever receives the freshly created segments of `analysisToSegments`, all
of which are unassigned, so no existing assignment is ever presented to it,
in whichever order the two triggers fire. -/
theorem C3_autofill_never_overwrites :
    (∀ (s : AppState) (newImages : List UploadedImage) (i : Nat) (seg : Segment)
        (x : String),
      s.project.segments.get? i = some seg → seg.assignedImageId = some x →
      (handleImageUpload s newImages).project.segments.get? i = some seg) ∧
    (∀ (rawData : List RawSegmentItem) (now : Nat),
      ∀ seg ∈ analysisToSegments rawData now, seg.assignedImageId = none) := by
  constructor
  · intro s newImages i seg x hget hx
    obtain ⟨hlt, -⟩ := List.get?_eq_some.mp hget
    have hpos : s.project.segments.length > 0 :=
      Nat.lt_of_le_of_lt (Nat.zero_le i) hlt
    rw [handleImageUpload_segments, if_pos hpos]
    unfold autoFillSegments
    rw [mapWithIdx_get?, hget]
    simp [hx]
  · exact analysisToSegments_unassigned

/-- A segment carrying a manual assignment, for concrete instances. -/
def segAssigned : Segment := { segA with assignedImageId := some "img-keep" }

/-- A state holding one manually assigned segment and an empty gallery. -/
def assignedState : AppState :=
  { project := { duration := 6, segments := [segAssigned] }
    images := []
    processing := ⟨.ready, "Analysis complete."⟩
    isPlaying := false
    currentTime := 0 }

/-- Sample gallery image (id in the shape the generator produces). -/
def img1 : UploadedImage := ⟨"img-100-a1b2c3d4e", "blob:1", "one.png"⟩

/-- Second sample gallery image. -/
def img2 : UploadedImage := ⟨"img-100-f5g6h7i8j", "blob:2", "two.png"⟩

/-- Concrete instance of C3: adding an image over a manually assigned segment
leaves that segment exactly as it was, and a freshly analysed segment is
unassigned when the analysis-completes pass sees it. -/
theorem C3_autofill_never_overwrites_witness :
    (handleImageUpload assignedState [img1]).project.segments.get? 0
        = some segAssigned ∧
    ∀ seg ∈ analysisToSegments [⟨0, 6, "hello", "sunrise", "Calm"⟩] 100,
      seg.assignedImageId = none := by
  constructor
  · exact C3_autofill_never_overwrites.1 assignedState [img1] 0 segAssigned "img-keep"
      rfl rfl
  · exact C3_autofill_never_overwrites.2 [⟨0, 6, "hello", "sunrise", "Calm"⟩] 100

/-- Third sample segment, `[12, 18)`. -/
def segC : Segment := ⟨"seg-c", 12, 18, "again", "forest", "Intense", none⟩

/-- **C4**: `matchImagesToSegments` with `M = images.length > 0` assigns the
image at index `i % M` to the segment at index `i` of the produced sequence;
with an empty gallery the segment list is returned unchanged, so segments
that arrive unassigned (as all freshly analysed segments do) stay
unassigned. -/
theorem C4_match_round_robin (segments : List Segment) (images : List UploadedImage) :
    (images = [] → matchImagesToSegments segments images = segments) ∧
    (images ≠ [] → ∀ (i : Nat) (seg : Segment), segments.get? i = some seg →
      (matchImagesToSegments segments images).get? i
        = some { seg with
            assignedImageId := some (imageAt images (i % images.length)).id }) ∧
    (images = [] → (∀ seg ∈ segments, seg.assignedImageId = none) →
      ∀ seg ∈ matchImagesToSegments segments images, seg.assignedImageId = none) := by
  refine ⟨?_, ?_, ?_⟩
  · intro h
    simp [matchImagesToSegments, h]
  · intro h i seg hget
    have hlen : ¬ images.length = 0 := fun hc => h (List.length_eq_zero.mp hc)
    simp only [matchImagesToSegments, if_neg hlen]
    rw [mapWithIdx_get?, hget]
    simp
  · intro h hall
    simp only [matchImagesToSegments, h, List.length_nil, if_pos rfl]
    exact hall

/-- Concrete instance of C4: three segments and two images give assignments
`0 mod 2 = 0`, `1 mod 2 = 1`, `2 mod 2 = 0`; and an empty gallery leaves the
segment list untouched. -/
theorem C4_match_round_robin_witness :
    (matchImagesToSegments [segA, segB, segC] [img1, img2]).get? 2
        = some { segC with assignedImageId := some img1.id } ∧
    matchImagesToSegments [segA, segB, segC] [] = [segA, segB, segC] := by
  constructor
  · exact (C4_match_round_robin [segA, segB, segC] [img1, img2]).2.1 (by decide) 2
      segC rfl
  · exact (C4_match_round_robin [segA, segB, segC] []).1 rfl

/-- **C5**: when images are added while segments exist, every segment at
index `i` with no `assignedImageId` receives the image at index
`i % L` of the full updated gallery (prior images followed by the new ones,
`L` its total length), and the gallery itself becomes exactly that updated
sequence. -/
theorem C5_image_upload_round_robin (s : AppState) (newImages : List UploadedImage)
    (hne : s.images ++ newImages ≠ []) :
    (∀ (i : Nat) (seg : Segment), s.project.segments.get? i = some seg →
      seg.assignedImageId = none →
      (handleImageUpload s newImages).project.segments.get? i
        = some { seg with
            assignedImageId :=
              some (imageAt (s.images ++ newImages)
                (i % (s.images ++ newImages).length)).id }) ∧
    (handleImageUpload s newImages).images = s.images ++ newImages := by
  constructor
  · intro i seg hget hnone
    obtain ⟨hlt, -⟩ := List.get?_eq_some.mp hget
    have hpos : s.project.segments.length > 0 :=
      Nat.lt_of_le_of_lt (Nat.zero_le i) hlt
    rw [handleImageUpload_segments, if_pos hpos]
    unfold autoFillSegments
    rw [mapWithIdx_get?, hget]
    simp [hnone]
  · exact handleImageUpload_images s newImages

/-- A state with three unassigned segments and an empty gallery (the claim's
scenario: analysis finished before any image was uploaded). -/
def threeSegState : AppState :=
  { project := { duration := 18, segments := [segA, segB, segC] }
    images := []
    processing := ⟨.ready, "Analysis complete."⟩
    isPlaying := false
    currentTime := 0 }

/-- Concrete instance of C5: 3 unassigned segments, gallery grows from 0 to 2
images — segments at indices 0, 1, 2 receive images at indices 0, 1, 0. -/
theorem C5_image_upload_round_robin_witness :
    (handleImageUpload threeSegState [img1, img2]).project.segments.get? 0
        = some { segA with assignedImageId := some img1.id } ∧
    (handleImageUpload threeSegState [img1, img2]).project.segments.get? 1
        = some { segB with assignedImageId := some img2.id } ∧
    (handleImageUpload threeSegState [img1, img2]).project.segments.get? 2
        = some { segC with assignedImageId := some img1.id } := by
  refine ⟨?_, ?_, ?_⟩
  · exact (C5_image_upload_round_robin threeSegState [img1, img2] (by decide)).1 0
      segA rfl rfl
  · exact (C5_image_upload_round_robin threeSegState [img1, img2] (by decide)).1 1
      segB rfl rfl
  · exact (C5_image_upload_round_robin threeSegState [img1, img2] (by decide)).1 2
      segC rfl rfl

/-- **C6**: `assignImageToSegment` sets `assignedImageId := imageId` on
exactly the segments whose `id` equals `segmentId` — position by position the
result is the input segment, untouched when the id differs and with only
`assignedImageId` replaced when it matches (the record update keeps `id`,
`startTime`, `endTime`, `text`, `visualPrompt`, `emotion`) — and when no
segment matches the whole list is returned unchanged: a silent no-op, never
an error.  The function never consults the gallery, so `imageId` is not
validated against it. -/
theorem C6_assign_image_pointwise (segments : List Segment) (segmentId imageId : String) :
    (∀ (i : Nat) (seg : Segment), segments.get? i = some seg →
      (assignImageToSegment segments segmentId imageId).get? i
        = some (if seg.id = segmentId
                then { seg with assignedImageId := some imageId } else seg)) ∧
    ((∀ seg ∈ segments, seg.id ≠ segmentId) →
      assignImageToSegment segments segmentId imageId = segments) ∧
    (assignImageToSegment segments segmentId imageId).length = segments.length := by
  refine ⟨?_, ?_, ?_⟩
  · intro i seg hget
    simp only [assignImageToSegment, List.get?_map, hget, Option.map_some']
  · intro h
    unfold assignImageToSegment
    induction segments with
    | nil => rfl
    | cons a as ih =>
      have ha : a.id ≠ segmentId := h a (List.mem_cons_self a as)
      simp only [List.map_cons, if_neg ha, List.cons.injEq, true_and]
      exact ih fun seg hseg => h seg (List.mem_cons_of_mem a hseg)
  · exact List.length_map segments _

/-- Concrete instance of C6: the matching segment gets the (never validated)
image id, the non-matching one is untouched, and a miss is a no-op. -/
theorem C6_assign_image_pointwise_witness :
    (assignImageToSegment [segA, segB] "seg-b" "img-dangling").get? 1
        = some { segB with assignedImageId := some "img-dangling" } ∧
    (assignImageToSegment [segA, segB] "seg-b" "img-dangling").get? 0 = some segA ∧
    assignImageToSegment [segA, segB] "seg-nope" "img-dangling" = [segA, segB] := by
  refine ⟨?_, ?_, ?_⟩
  · exact (C6_assign_image_pointwise [segA, segB] "seg-b" "img-dangling").1 1 segB rfl
  · exact (C6_assign_image_pointwise [segA, segB] "seg-b" "img-dangling").1 0 segA rfl
  · exact (C6_assign_image_pointwise [segA, segB] "seg-nope" "img-dangling").2.1
      (by decide)

theorem assignImageToSegment_idem (segments : List Segment) (segmentId imageId : String) :
    assignImageToSegment (assignImageToSegment segments segmentId imageId)
        segmentId imageId
      = assignImageToSegment segments segmentId imageId := by
  unfold assignImageToSegment
  induction segments with
  | nil => rfl
  | cons a as ih =>
    simp only [List.map_cons, List.cons.injEq]
    refine ⟨?_, ih⟩
    by_cases h : a.id = segmentId <;> simp [h]

/-- **C7**: assigning the same image to the same segment twice leaves the
store in the same observable state as assigning it once — `assignImage` is
idempotent on the whole app state. -/
theorem C7_assign_image_idempotent (s : AppState) (segmentId imageId : String) :
    assignImage (assignImage s segmentId imageId) segmentId imageId
      = assignImage s segmentId imageId := by
  simp [assignImage, assignImageToSegment_idem]

/-- **C8**: a timeline click with a rendered track of positive width and a
nonzero duration seeks to `clamp((clientX - rect.left) / rect.width, 0, 1) *
duration`; in particular a click at half the width of a 40-second track seeks
to exactly 20 seconds. -/
theorem C8_seek_by_click (duration rectLeft clientX rectWidth : ℚ)
    (hw : 0 < rectWidth) (hd : duration ≠ 0) :
    handleTimelineClick true duration rectLeft clientX rectWidth
      = some (max 0 (min 1 ((clientX - rectLeft) / rectWidth)) * duration) ∧
    (duration = 40 → clientX - rectLeft = rectWidth / 2 →
      handleTimelineClick true duration rectLeft clientX rectWidth = some 20) := by
  have hgen : handleTimelineClick true duration rectLeft clientX rectWidth
      = some (max 0 (min 1 ((clientX - rectLeft) / rectWidth)) * duration) := by
    simp [handleTimelineClick, hd]
  refine ⟨hgen, ?_⟩
  intro h40 hhalf
  rw [hgen, hhalf, h40]
  have hwne : rectWidth ≠ 0 := ne_of_gt hw
  have hfrac : rectWidth / 2 / rectWidth = (1 : ℚ) / 2 := by
    field_simp
    ring
  rw [hfrac]
  norm_num

/-- The click offset of the C8 instance is exactly half the track width. -/
theorem half_width_offset : (5 : ℚ) - 0 = 10 / 2 := by
  norm_num

/-- Concrete instance of C8: track width 10, click offset 5, duration 40
seeks to 20. -/
theorem C8_seek_by_click_witness :
    handleTimelineClick true 40 0 5 10 = some 20 := by
  exact (C8_seek_by_click 40 0 5 10 (by decide) (by decide)).2 rfl half_width_offset

/-- **C10**: when `duration = 0` (no audio metadata yet) a timeline click
performs no seek at all: `handleTimelineClick` returns before computing any
fraction, `onSeek` is never invoked, and the app state — in particular the
playback position — is unchanged. -/
theorem C10_zero_duration_no_seek (s : AppState) (containerPresent : Bool)
    (rectLeft clientX rectWidth : ℚ) (hd : s.project.duration = 0) :
    handleTimelineClick containerPresent s.project.duration rectLeft clientX rectWidth
        = none ∧
    applyTimelineClick s containerPresent rectLeft clientX rectWidth = s ∧
    (applyTimelineClick s containerPresent rectLeft clientX rectWidth).currentTime
        = s.currentTime := by
  have h1 : handleTimelineClick containerPresent s.project.duration rectLeft clientX
      rectWidth = none := by
    simp [handleTimelineClick, hd]
  have h2 : applyTimelineClick s containerPresent rectLeft clientX rectWidth = s := by
    simp [applyTimelineClick, h1]
  exact ⟨h1, h2, by rw [h2]⟩

/-- Concrete instance of C10: in the initial state (duration `0`) a click
anywhere changes nothing. -/
theorem C10_zero_duration_no_seek_witness :
    handleTimelineClick true initialState.project.duration 0 123 800 = none ∧
    applyTimelineClick initialState true 0 123 800 = initialState := by
  have h := C10_zero_duration_no_seek initialState true 0 123 800 rfl
  exact ⟨h.1, h.2.1⟩

theorem string_append_left_cancel (p r1 r2 : String) (h : p ++ r1 = p ++ r2) :
    r1 = r2 := by
  have hdata : p.data ++ r1.data = p.data ++ r2.data := by
    rw [← String.data_append, ← String.data_append, h]
  have h2 : r1.data = r2.data := List.append_cancel_left hdata
  cases r1
  cases r2
  exact congrArg String.mk h2

/-- For a fixed clock value, the generated image id determines the random
suffix. -/
theorem makeImageId_injective (now : Nat) : Function.Injective (makeImageId now) := by
  intro r1 r2 h
  exact string_append_left_cancel ("img-" ++ toString now ++ "-") r1 r2 h

/-- Two distinct files of one upload call, observed in the same millisecond
and with an identical `Math.random()` draw. -/
def fileX : ImageFileEvent := ⟨"one.png", "blob:a", 1700000000000, "k7m2p9q4r"⟩

/-- Second file of the colliding pair: different name, same tick, same
random draw. -/
def fileY : ImageFileEvent := ⟨"two.png", "blob:b", 1700000000000, "k7m2p9q4r"⟩

/-- **C9 counterexample**: the generator `img-${Date.now()}-${Math.random()
.toString(36).substr(2, 9)}` does not guarantee uniqueness — two files
uploaded in the same call in the same millisecond whose random draws coincide
receive the very same id, so the gallery's ids are not pairwise distinct. -/
theorem C9_image_id_collision_counterexample :
    fileX ≠ fileY ∧
    ¬ ((imagesFromFiles [fileX, fileY]).map (fun img => img.id)).Nodup := by
  constructor
  · decide
  · decide

/-- **C9 (amended)**: image upload appends the new images to the gallery in
input order, preserving all previously uploaded images (names in input
order); and the ids of a gallery extended by files of one tick are pairwise
distinct *provided* the random suffixes drawn in that tick are pairwise
distinct and none of the generated ids already occurs in the gallery — the
random component alone carries uniqueness, it is not guaranteed by
construction. -/
theorem C9_image_upload_amended (s : AppState) (files : List ImageFileEvent) (now : Nat)
    (hnow : ∀ f ∈ files, f.now = now)
    (hrands : (files.map fun f => f.rand).Nodup)
    (hfresh : ∀ f ∈ files, makeImageId now f.rand ∉ s.images.map (fun img => img.id))
    (hold : (s.images.map fun img => img.id).Nodup) :
    (handleImageUploadFiles s files).images = s.images ++ imagesFromFiles files ∧
    (imagesFromFiles files).map (fun img => img.name) = files.map (fun f => f.name) ∧
    ((handleImageUploadFiles s files).images.map (fun img => img.id)).Nodup := by
  have himgs : (handleImageUploadFiles s files).images
      = s.images ++ imagesFromFiles files :=
    handleImageUpload_images s (imagesFromFiles files)
  have hids : (imagesFromFiles files).map (fun img => img.id)
      = (files.map fun f => f.rand).map (makeImageId now) := by
    simp only [imagesFromFiles, List.map_map]
    refine List.map_congr_left ?_
    intro f hf
    simp [Function.comp, hnow f hf]
  refine ⟨himgs, ?_, ?_⟩
  · simp [imagesFromFiles, List.map_map, Function.comp]
  · rw [himgs, List.map_append, List.nodup_append]
    refine ⟨hold, ?_, ?_⟩
    · rw [hids]
      exact hrands.map (makeImageId_injective now)
    · intro a ha hb
      rw [hids] at hb
      obtain ⟨r, hr, rfl⟩ := List.mem_map.mp hb
      obtain ⟨f, hf, rfl⟩ := List.mem_map.mp hr
      exact hfresh f hf ha

/-- A second file with a distinct random suffix, for the amended C9
instance. -/
def fileZ : ImageFileEvent := ⟨"two.png", "blob:b", 1700000000000, "w3x8y1z5t"⟩

/-- Concrete instance of the amended C9: two files of one tick with distinct
random suffixes extend the empty gallery in input order with distinct ids. -/
theorem C9_image_upload_amended_witness :
    (handleImageUploadFiles initialState [fileX, fileZ]).images
        = initialState.images ++ imagesFromFiles [fileX, fileZ] ∧
    (imagesFromFiles [fileX, fileZ]).map (fun img => img.name)
        = [fileX, fileZ].map (fun f => f.name) ∧
    ((handleImageUploadFiles initialState [fileX, fileZ]).images.map
        (fun img => img.id)).Nodup := by
  exact C9_image_upload_amended initialState [fileX, fileZ] 1700000000000
    (by decide) (by decide) (by decide) (by decide)
